import Mathlib

/-!
Verification development for the core trading engine of the `sol-trade-sdk`
repository: the fee-strategy table (`src/common/gas_fee_strategy.rs`), the
transaction assembly (`src/trading/common/transaction_builder.rs` and
`compute_budget_manager.rs`), the submission engine and its result collector
(`src/trading/core/async_executor.rs`), and the confirmation poller
(`src/swqos/common.rs`).  Machine integers (`u32`, `u64`) are modelled as
`Nat` (the code only copies and compares them, never does overflowing
arithmetic on them); `f64` tip amounts are modelled as `ℚ` (the code only
copies, orders and scales them; `NaN` never arises from the constants in
scope).  Addresses, hashes and signatures are modelled as `Nat` tokens.
-/

namespace SolTradeSdk

/-- Trade direction (`TradeType` in `src/swqos/mod.rs`). -/
inductive TradeType
  | Create
  | CreateAndBuy
  | Buy
  | Sell
deriving DecidableEq

/-- Relay-provider discriminant (`SwqosType` in `src/swqos/mod.rs`). -/
inductive SwqosType
  | Jito
  | NextBlock
  | ZeroSlot
  | Temporal
  | Bloxroute
  | Node1
  | FlashBlock
  | BlockRazor
  | Astralane
  | Stellium
  | Lightspeed
  | Soyas
  | Default
deriving DecidableEq

/-- Strategy variant (`GasFeeStrategyType` in `src/common/gas_fee_strategy.rs`). -/
inductive GasFeeStrategyType
  | Normal
  | LowTipHighCuPrice
  | HighTipLowCuPrice
deriving DecidableEq

/-- `GasFeeStrategyValue` from `src/common/gas_fee_strategy.rs`:
`cu_limit: u32`, `cu_price: u64`, `tip: f64`, `data_size_limit: u32`. -/
structure GasFeeStrategyValue where
  cu_limit : Nat
  cu_price : Nat
  tip : ℚ
  data_size_limit : Nat
deriving DecidableEq

/-- Key of the strategy map: `(SwqosType, TradeType, GasFeeStrategyType)`. -/
abbrev StrategyKey := SwqosType × TradeType × GasFeeStrategyType

/-- The strategy table.  The source stores a `HashMap` behind an
atomically swapped pointer (`ArcSwap`); each mutation clones the map,
mutates the clone and swaps it in, so readers always see one complete
snapshot.  A snapshot is modelled as a finite partial map. -/
def Table := StrategyKey → Option GasFeeStrategyValue

namespace GasFeeStrategy

/-- `GasFeeStrategy::del`: remove the entry for one exact key. -/
def del (m : Table) (swqosType : SwqosType) (tradeType : TradeType)
    (strategyType : GasFeeStrategyType) : Table :=
  fun k => if k = (swqosType, tradeType, strategyType) then none else m k

/-- `GasFeeStrategy::set`: a `Normal` insert first deletes both high/low
variants of the pair, any other insert first deletes the `Normal` variant,
then the entry itself is inserted. -/
def set (m : Table) (swqosType : SwqosType) (tradeType : TradeType)
    (strategyType : GasFeeStrategyType) (cuLimit : Nat) (cuPrice : Nat)
    (tip : ℚ) (dataSizeLimit : Nat) : Table :=
  let m :=
    if strategyType = GasFeeStrategyType.Normal then
      del (del m swqosType tradeType GasFeeStrategyType.HighTipLowCuPrice)
        swqosType tradeType GasFeeStrategyType.LowTipHighCuPrice
    else
      del m swqosType tradeType GasFeeStrategyType.Normal
  fun k =>
    if k = (swqosType, tradeType, strategyType) then
      some ⟨cuLimit, cuPrice, tip, dataSizeLimit⟩
    else m k

/-- `GasFeeStrategy::del_all`: remove all three variants of a pair. -/
def del_all (m : Table) (swqosType : SwqosType) (tradeType : TradeType) : Table :=
  del (del (del m swqosType tradeType GasFeeStrategyType.Normal)
      swqosType tradeType GasFeeStrategyType.LowTipHighCuPrice)
    swqosType tradeType GasFeeStrategyType.HighTipLowCuPrice

/-- `GasFeeStrategy::clear`: store a fresh empty map. -/
def clear (_ : Table) : Table := fun _ => none

/-- `GasFeeStrategy::update_buy_tip`: clone the map, set the `tip` field of
every `Buy` entry, swap the clone in. -/
def update_buy_tip (m : Table) (buyTip : ℚ) : Table :=
  fun k =>
    match m k with
    | some v => if k.2.1 = TradeType.Buy then some { v with tip := buyTip } else some v
    | none => none

/-- `GasFeeStrategy::update_sell_tip`. -/
def update_sell_tip (m : Table) (sellTip : ℚ) : Table :=
  fun k =>
    match m k with
    | some v => if k.2.1 = TradeType.Sell then some { v with tip := sellTip } else some v
    | none => none

/-- `GasFeeStrategy::update_buy_cu_price`. -/
def update_buy_cu_price (m : Table) (buyCuPrice : Nat) : Table :=
  fun k =>
    match m k with
    | some v => if k.2.1 = TradeType.Buy then some { v with cu_price := buyCuPrice } else some v
    | none => none

/-- `GasFeeStrategy::update_sell_cu_price`. -/
def update_sell_cu_price (m : Table) (sellCuPrice : Nat) : Table :=
  fun k =>
    match m k with
    | some v => if k.2.1 = TradeType.Sell then some { v with cu_price := sellCuPrice } else some v
    | none => none

end GasFeeStrategy

/-- One mutating call on the strategy table. -/
inductive TableOp
  | set (s : SwqosType) (t : TradeType) (st : GasFeeStrategyType)
      (cuLimit : Nat) (cuPrice : Nat) (tip : ℚ) (dataSizeLimit : Nat)
  | del (s : SwqosType) (t : TradeType) (st : GasFeeStrategyType)
  | del_all (s : SwqosType) (t : TradeType)
  | clear

/-- Apply one call to a table snapshot. -/
def TableOp.apply (op : TableOp) (m : Table) : Table :=
  match op with
  | .set s t st cuLimit cuPrice tip dataSizeLimit =>
      GasFeeStrategy.set m s t st cuLimit cuPrice tip dataSizeLimit
  | .del s t st => GasFeeStrategy.del m s t st
  | .del_all s t => GasFeeStrategy.del_all m s t
  | .clear => GasFeeStrategy.clear m

/-- The empty table `GasFeeStrategy::new` starts from. -/
def emptyTable : Table := fun _ => none

/-- Run a finite sequence of calls starting from the empty table. -/
def runOps (ops : List TableOp) : Table :=
  ops.foldl (fun m op => op.apply m) emptyTable

/-- Solana instruction, abstracted to the constructors the builder emits.
`business` tags a caller-supplied instruction; the other constructors are the
ones `build_transaction` itself pushes. -/
inductive Instr
  | advanceNonce (nonceAccount : Nat) (authority : Nat)
  | transfer (source : Nat) (dest : Nat) (lamports : Nat)
  | setComputeUnitPrice (p : Nat)
  | setComputeUnitLimit (l : Nat)
  | business (tag : Nat)
deriving DecidableEq

/-- `DurableNonceInfo` from `src/common/nonce_cache.rs`: both fields are
`Option` in the source. -/
structure DurableNonceInfo where
  nonce_account : Option Nat
  current_nonce : Option Nat
deriving DecidableEq

/-- `compute_budget_instructions` from
`src/trading/common/compute_budget_manager.rs`: push the price instruction
only when `unit_price > 0`, then the limit instruction only when
`unit_limit > 0`.  The `DashMap` cache in the source memoizes this pure
function per `(price, limit)` key and never changes its value. -/
def compute_budget_instructions (unitPrice : Nat) (unitLimit : Nat) : List Instr :=
  (if unitPrice > 0 then [Instr.setComputeUnitPrice unitPrice] else [])
    ++ (if unitLimit > 0 then [Instr.setComputeUnitLimit unitLimit] else [])

/-- Modelled from the spec: `add_nonce_instruction` lives in
`src/trading/common/nonce_manager.rs`, which is not under `src/` (only its
caller `transaction_builder.rs` is).  The spec says: "if targeting a durable
nonce, a nonce-advance instruction must be the very first instruction"; the
builder calls this on the still-empty instruction list, so the model appends
an advance-nonce instruction (nonce account, payer as authority) exactly when
a durable-nonce descriptor with a nonce account is supplied. -/
def add_nonce_instruction (instructions : List Instr) (payer : Nat)
    (durableNonce : Option DurableNonceInfo) : Except String (List Instr) :=
  match durableNonce with
  | none => Except.ok instructions
  | some info =>
      match info.nonce_account with
      | some nonceAccount => Except.ok (instructions ++ [Instr.advanceNonce nonceAccount payer])
      | none => Except.ok instructions

/-- `sol_str_to_lamports(tip_amount.to_string())` rendered over `ℚ`: scale
SOL to lamports, flooring (`unwrap_or(0)` never fires for the in-range
numeric values the engine passes). -/
def solToLamports (amount : ℚ) : Nat := (amount * 1000000000).floor.toNat

/-- The instruction-assembly phase of `build_transaction`
(`src/trading/common/transaction_builder.rs`, lines 37-62): nonce-advance
first (when a durable nonce is targeted), then the tip transfer when
`with_tip && tip_amount > 0.0`, then the compute-budget instructions, then
the caller-supplied business instructions. -/
def buildTransactionInstructions (payer : Nat) (unitLimit : Nat) (unitPrice : Nat)
    (businessInstructions : List Instr) (withTip : Bool) (tipAccount : Nat)
    (tipAmount : ℚ) (durableNonce : Option DurableNonceInfo) :
    Except String (List Instr) := do
  let instructions ← add_nonce_instruction [] payer durableNonce
  let instructions :=
    if withTip ∧ 0 < tipAmount then
      instructions ++ [Instr.transfer payer tipAccount (solToLamports tipAmount)]
    else instructions
  let instructions := instructions ++ compute_budget_instructions unitPrice unitLimit
  Except.ok (instructions ++ businessInstructions)

/-- A versioned transaction: the fields of `VersionedTransaction` that the
engine inspects (its signature list) plus the signed message. -/
structure VersionedTransaction where
  signatures : List Nat
  message : List Instr × Nat
deriving DecidableEq

/-- Signing a serialized message with the payer key, modelled as an
injective pairing. -/
def signMessage (payer : Nat) (msgBytes : Nat) : Nat := Nat.pair payer msgBytes

/-- Serialization of the versioned message, modelled as a token. -/
def serializeMessage (payer : Nat) (instructions : List Instr) (blockhash : Nat) : Nat :=
  Nat.pair payer (Nat.pair (instructions.length) blockhash)

/-- `build_versioned_transaction`
(`src/trading/common/transaction_builder.rs`, lines 100-117, middleware
absent): sign the serialized message once and build the transaction with
`signatures: vec![signature]`. -/
def build_versioned_transaction (payer : Nat) (instructions : List Instr)
    (blockhash : Nat) : VersionedTransaction :=
  { signatures := [signMessage payer (serializeMessage payer instructions blockhash)]
    message := (instructions, blockhash) }

/-- One entry of the `get_strategies` snapshot:
`(SwqosType, GasFeeStrategyType, GasFeeStrategyValue)`. -/
abbrev StrategyEntry := SwqosType × GasFeeStrategyType × GasFeeStrategyValue

/-- Per-provider minimum-tip floor used by `execute_parallel`
(`src/trading/core/async_executor.rs`, lines 199-212, constants from
`src/constants/swqos.rs`): every floor is `SWQOS_MIN_TIP_DEFAULT = 0.00001`
SOL except `Node1` at `0.002`.  Modelled from the spec for the three gaps in
the `src/` snapshot: `SWQOS_MIN_TIP_STELLIUM` and `SWQOS_MIN_TIP_LIGHTSPEED`
are imported but their constant definitions are missing, and the `Soyas`
variant has no match arm; the spec describes the floors as fixed
vendor-specific values, and these three are given the default floor. -/
def minTip (s : SwqosType) : ℚ :=
  match s with
  | SwqosType.Node1 => 2 / 1000
  | _ => 1 / 100000

/-- A `(relay, strategy)` task pair: roster index, the relay's provider
type, and the strategy entry. -/
abbrev TaskConfig := Nat × SwqosType × StrategyEntry

/-- The `task_configs` computation of `execute_parallel`
(`src/trading/core/async_executor.rs`, lines 181-226).  Each relay client is
represented by its `SwqosType`; `strategies` is the `get_strategies`
snapshot for the trade direction.  Keep a client only when `with_tip` is on
or it is the `Default` provider; keep only strategy entries whose provider
equals the client's type; when tipping is on and the provider is not
`Default`, keep only entries whose tip reaches the provider's floor. -/
def taskConfigs (clients : List SwqosType) (withTip : Bool)
    (strategies : List StrategyEntry) : List TaskConfig :=
  (clients.enum.filter fun ic =>
      withTip || decide (ic.2 = SwqosType.Default)).flatMap
    fun ic =>
      ((strategies.filter fun e => decide (e.1 = ic.2)).filter fun e =>
          if withTip && !(decide (e.1 = SwqosType.Default)) then
            decide (minTip e.1 ≤ e.2.2.tip)
          else true).map
        fun e => (ic.1, ic.2, e)

/-- The errors `execute_parallel` can return before spawning any task. -/
inductive ExecError
  | emptyClients
  | noDefaultSwqos
  | noAvailableStrategy
  | nonceRequired
deriving DecidableEq

/-- The pre-spawn phase of `execute_parallel`
(`src/trading/core/async_executor.rs`, lines 164-238): guard order as in the
source — empty roster; no `Default` relay while tipping is off; empty
`task_configs`; the multi-submission durable-nonce guard for buys.  An `ok`
result is the list of task pairs the engine then spawns one task for. -/
def executeParallelPlan (clients : List SwqosType) (withTip : Bool)
    (strategies : List StrategyEntry) (isBuy : Bool)
    (durableNonce : Option DurableNonceInfo) : Except ExecError (List TaskConfig) :=
  if clients = [] then Except.error ExecError.emptyClients
  else if !withTip && !(clients.any fun c => decide (c = SwqosType.Default)) then
    Except.error ExecError.noDefaultSwqos
  else
    let cfgs := taskConfigs clients withTip strategies
    if cfgs = [] then Except.error ExecError.noAvailableStrategy
    else if isBuy && decide (1 < cfgs.length) && decide (durableNonce = none) then
      Except.error ExecError.nonceRequired
    else Except.ok cfgs

/-- `true` exactly on the `error` branch of an `Except`. -/
def isErr {ε α : Type} (e : Except ε α) : Bool :=
  match e with
  | Except.error _ => true
  | Except.ok _ => false

instance {ε α : Type} [DecidableEq ε] [DecidableEq α] : DecidableEq (Except ε α) := fun a b =>
  match a, b with
  | Except.error x, Except.error y =>
      if h : x = y then isTrue (by rw [h]) else isFalse (by simp [h])
  | Except.ok x, Except.ok y =>
      if h : x = y then isTrue (by rw [h]) else isFalse (by simp [h])
  | Except.error _, Except.ok _ => isFalse (by simp)
  | Except.ok _, Except.error _ => isFalse (by simp)

/-- `TaskResult` from `src/trading/core/async_executor.rs`: success flag,
signature, optional error (errors modelled as strings), provider type. -/
structure TaskResult where
  success : Bool
  signature : Nat
  error : Option String
  swqos_type : SwqosType
deriving DecidableEq

/-- The shared `ResultCollector` state: the bounded `ArrayQueue` contents in
push (FIFO) order, the atomic success flag, the atomic completed counter and
the fixed task total.  Atomic operations are linearizable, so a submission
round is modelled as a sequence of `submit` steps applied to this state;
acquire/release orderings become ordinary sequential visibility. -/
structure CollectorState where
  results : List TaskResult
  success_flag : Bool
  completed_count : Nat
  total_tasks : Nat
deriving DecidableEq

/-- `ResultCollector::new(capacity)`: empty queue of capacity
`total_tasks`, flag clear, counter zero. -/
def initCollector (capacity : Nat) : CollectorState :=
  { results := [], success_flag := false, completed_count := 0, total_tasks := capacity }

/-- `ResultCollector::submit`: push into the bounded queue (the push is
dropped when the queue already holds `total_tasks` results — `let _ =
self.results.push(result)`), set the success flag when the result succeeded,
then bump the completed counter. -/
def submit (st : CollectorState) (r : TaskResult) : CollectorState :=
  { results := if st.results.length < st.total_tasks then st.results ++ [r] else st.results
    success_flag := st.success_flag || r.success
    completed_count := st.completed_count + 1
    total_tasks := st.total_tasks }

/-- Apply a sequence of result submissions in order. -/
def applySubmits (rs : List TaskResult) (st : CollectorState) : CollectorState :=
  rs.foldl submit st

/-- The drain loop of `wait_for_success` / `get_first`: pop everything in
FIFO order, collecting all signatures, whether any popped result succeeded,
and the error of the most recently popped erroring result. -/
def drainAll (rs : List TaskResult) : Bool × List Nat × Option String :=
  rs.foldl
    (fun acc r =>
      (acc.1 || r.success, acc.2.1 ++ [r.signature],
        if r.error.isSome then r.error else acc.2.2))
    (false, [], none)

/-- What one inspection of the collector decides. -/
inductive WaitDecision
  | ret (r : Bool × List Nat × Option String)
  | retNone
  | yield
deriving DecidableEq

/-- One iteration of the body of `ResultCollector::wait_for_success`
(`src/trading/core/async_executor.rs`, lines 76-118), between two
cooperative yields: when the success flag reads true, drain the queue and
return `(true, all signatures, none)` if a success was drained and at least
one signature was collected, else fall through (with the queue now empty) to
the completed-count check; when the completed count has reached the task
total, drain the queue and return `(any_success, signatures, last_error)`,
or `None` (`retNone`) when nothing was drained; otherwise yield and loop
(the 30-second ceiling also returns `None`, which the caller turns into the
"All transactions failed" error). -/
def waitStep (st : CollectorState) : CollectorState × WaitDecision :=
  if st.success_flag then
    let popped := st.results
    let st := { st with results := [] }
    let sigs := popped.map (fun r => r.signature)
    let hasSuccess := popped.any (fun r => r.success)
    if hasSuccess && !sigs.isEmpty then (st, WaitDecision.ret (true, sigs, none))
    else if st.total_tasks ≤ st.completed_count then (st, WaitDecision.retNone)
    else (st, WaitDecision.yield)
  else if st.total_tasks ≤ st.completed_count then
    let popped := st.results
    let st := { st with results := [] }
    let (anySuccess, sigs, lastError) := drainAll popped
    if !sigs.isEmpty then (st, WaitDecision.ret (anySuccess, sigs, lastError))
    else (st, WaitDecision.retNone)
  else (st, WaitDecision.yield)

/-- The most recently observed task error in a submission sequence: the
`error` of the last result carrying one. -/
def lastTaskError (rs : List TaskResult) : Option String :=
  match rs with
  | [] => none
  | r :: rest =>
      match lastTaskError rest with
      | some e => some e
      | none => r.error

/-- The body of one spawned submission task after the build step
(`src/trading/core/async_executor.rs`, lines 258-326): a failed build pushes
one sentinel result (`Signature::default()`, modelled `0`) carrying the
build error; a successful build sends the transaction and pushes one result
with the transaction's first signature — guarded by
`if let Some(signature) = transaction.signatures.first()`. -/
def runTask (buildOutcome : Except String VersionedTransaction)
    (sendResult : Except String Unit) (swqosType : SwqosType) : List TaskResult :=
  match buildOutcome with
  | Except.error e =>
      [{ success := false, signature := 0, error := some e, swqos_type := swqosType }]
  | Except.ok tx =>
      let success : Bool :=
        match sendResult with
        | Except.ok _ => true
        | Except.error _ => false
      let err : Option String :=
        match sendResult with
        | Except.ok _ => none
        | Except.error e => some e
      match tx.signatures.head? with
      | some s => [{ success := success, signature := s, error := err, swqos_type := swqosType }]
      | none => []

/-- One spawned task whose build outcome, when it succeeds, comes from the
transaction builder: `buildSpec` is either the build error or the builder's
inputs (payer, full instruction list, blockhash). -/
def runSpawnedTask (buildSpec : Except String (Nat × List Instr × Nat))
    (sendResult : Except String Unit) (swqosType : SwqosType) : List TaskResult :=
  runTask (buildSpec.map fun a => build_versioned_transaction a.1 a.2.1 a.2.2)
    sendResult swqosType

/-- The instruction-error categories named in the `match` of
`poll_transaction_confirmation` (`src/swqos/common.rs`, lines 143-156);
`otherVariant` stands for every remaining `InstructionError` variant, all of
which the source maps to `999`. -/
inductive InstructionErr
  | Custom (c : Nat)
  | GenericError
  | InvalidArgument
  | InvalidInstructionData
  | InvalidAccountData
  | AccountDataTooSmall
  | InsufficientFunds
  | IncorrectProgramId
  | MissingRequiredSignature
  | AccountAlreadyInitialized
  | UninitializedAccount
  | otherVariant
deriving DecidableEq

/-- A transaction-level error: either an instruction error with its
instruction index, or any other `TransactionError` variant (for which the
source's `code` stays `0` and `instruction` stays `None`). -/
inductive TxErr
  | InstructionError (index : Nat) (e : InstructionErr)
  | otherTxError
deriving DecidableEq

/-- The stable numeric code of one instruction-error category, copied from
the `match i_error` arms of `src/swqos/common.rs`. -/
def instructionErrorCode (e : InstructionErr) : Nat :=
  match e with
  | InstructionErr.Custom c => c
  | InstructionErr.GenericError => 1
  | InstructionErr.InvalidArgument => 2
  | InstructionErr.InvalidInstructionData => 3
  | InstructionErr.InvalidAccountData => 4
  | InstructionErr.AccountDataTooSmall => 5
  | InstructionErr.InsufficientFunds => 6
  | InstructionErr.IncorrectProgramId => 7
  | InstructionErr.MissingRequiredSignature => 8
  | InstructionErr.AccountAlreadyInitialized => 9
  | InstructionErr.UninitializedAccount => 10
  | InstructionErr.otherVariant => 999

/-- `(code, instruction index)` a `TradeError` is built from: the mapped
code and the instruction index for an instruction error, `(0, none)` for any
other transaction error. -/
def txErrorCode (e : TxErr) : Nat × Option Nat :=
  match e with
  | TxErr.InstructionError i ie => (instructionErrorCode ie, some i)
  | TxErr.otherTxError => (0, none)

/-- Strip every trailing `'.'`, as `trim_end_matches('.')` does. -/
def trimTrailingDots (s : String) : String :=
  String.mk ((s.toList.reverse.dropWhile fun c => c = '.').reverse)

/-- The substring after the first occurrence of `pat` in `log`
(`log.find(pat)` followed by slicing past the pattern), or `none` when `pat`
does not occur. -/
def afterFirst (pat : String) (log : String) : Option String :=
  match log.splitOn pat with
  | [] => none
  | [_] => none
  | _ :: rest => some (String.intercalate pat rest)

/-- Append one extracted message, separated by `"; "` when the accumulator
is nonempty. -/
def appendErrorMsg (acc : String) (m : String) : String :=
  if acc = "" then m else acc ++ "; " ++ m

/-- The log-derived error message of `poll_transaction_confirmation`
(`src/swqos/common.rs`, lines 111-131): for each log line, take what follows
the first `"Error Message: "` (else the first `"Program log: Error: "`),
trimmed of trailing dots, joined with `"; "`. -/
def extractErrorMsg (logs : Option (List String)) : String :=
  match logs with
  | none => ""
  | some ls =>
      ls.foldl
        (fun acc log =>
          match afterFirst "Error Message: " log with
          | some m => appendErrorMsg acc (trimTrailingDots m)
          | none =>
              match afterFirst "Program log: Error: " log with
              | some m => appendErrorMsg acc (trimTrailingDots m)
              | none => acc)
        ""

/-- Rendering of a `TransactionError` by its `Display` instance, abstracted
to a per-variant token. -/
def txErrDisplay (e : TxErr) : String :=
  match e with
  | TxErr.InstructionError i _ => "instruction error at " ++ toString i
  | TxErr.otherTxError => "transaction error"

/-- The `TradeError` message `format!("{} {:?}", tx_err, error_msg)`: the
transaction error's rendering, a space, and the log-derived message (which
`{:?}` wraps in quotes). -/
def formatTradeErrorMessage (e : TxErr) (logMsg : String) : String :=
  txErrDisplay e ++ " \"" ++ logMsg ++ "\""

/-- Commitment level reported by `get_signature_statuses`. -/
inductive TxConfirmationStatus
  | processed
  | confirmed
  | finalized
deriving DecidableEq

/-- The part of a signature status the poller reads: its error and its
commitment level. -/
structure SignatureStatus where
  err : Option TxErr
  confirmation_status : Option TxConfirmationStatus
deriving DecidableEq

/-- Transaction metadata from `get_transaction_with_config`. -/
structure TxMeta where
  err : Option TxErr
  log_messages : Option (List String)
deriving DecidableEq

/-- A fetched transaction: its optional metadata. -/
structure TxDetails where
  meta : Option TxMeta
deriving DecidableEq

/-- What the chain reports in one poll iteration: the result of the
`get_signature_statuses` call (whose error the `?` operator propagates) and
the result of the `get_transaction_with_config` call (whose error means "not
yet visible, keep polling"). -/
structure PollRound where
  statusResp : Except String (Option SignatureStatus)
  txResp : Except String TxDetails

/-- How `poll_transaction_confirmation` can come back. -/
inductive PollOutcome
  | confirmedTx
  | failed (code : Nat) (message : String) (instructionIndex : Option Nat)
  | timedOut
  | rpcError (e : String)
deriving DecidableEq

/-- `Duration::from_secs(15)` in milliseconds: the poll deadline. -/
def pollTimeoutMs : Nat := 15000

/-- `Duration::from_millis(1000)`: the poll interval. -/
def pollIntervalMs : Nat := 1000

/-- True when a signature status reports no error at `Confirmed` or
`Finalized` commitment (`src/swqos/common.rs`, lines 70-79). -/
def statusConfirms (statusOpt : Option SignatureStatus) : Bool :=
  match statusOpt with
  | some s =>
      s.err.isNone
        && (decide (s.confirmation_status = some TxConfirmationStatus.confirmed)
          || decide (s.confirmation_status = some TxConfirmationStatus.finalized))
  | none => false

/-- The loop of `poll_transaction_confirmation` (`src/swqos/common.rs`,
lines 64-169).  `n` is the iteration number; elapsed time is modelled as
`n * pollIntervalMs`, since every path that continues the loop sleeps for
one interval and the RPC round-trips are modelled as instantaneous.  Each
iteration: deadline check; status query (a query error is propagated by
`?`); return confirmed on a clean status at sufficient commitment; else
fetch the transaction — fetch error or absent metadata sleeps and retries;
metadata without an execution error is confirmed; metadata with one yields
the mapped `TradeError`.  The fuel only bounds the recursion: the deadline
check fires at `n = 15`, so fuel `16` is never exhausted from `n = 0`. -/
def pollLoopAux (rounds : Nat → PollRound) : Nat → Nat → PollOutcome
  | 0, _ => PollOutcome.timedOut
  | fuel + 1, n =>
    if pollTimeoutMs ≤ n * pollIntervalMs then PollOutcome.timedOut
    else
      match (rounds n).statusResp with
      | Except.error e => PollOutcome.rpcError e
      | Except.ok statusOpt =>
          if statusConfirms statusOpt then PollOutcome.confirmedTx
          else
            match (rounds n).txResp with
            | Except.error _ => pollLoopAux rounds fuel (n + 1)
            | Except.ok details =>
                match details.meta with
                | none => pollLoopAux rounds fuel (n + 1)
                | some meta =>
                    match meta.err with
                    | none => PollOutcome.confirmedTx
                    | some txErr =>
                        let errorMsg := extractErrorMsg meta.log_messages
                        PollOutcome.failed (txErrorCode txErr).1
                          (formatTradeErrorMessage txErr errorMsg) (txErrorCode txErr).2

/-- `poll_transaction_confirmation` over a stream of chain observations. -/
def poll_transaction_confirmation (rounds : Nat → PollRound) : PollOutcome :=
  pollLoopAux rounds 16 0

/-- The three outcome forms the specification names: confirmed, code-mapped
failure, timeout.  `rpcError` is not among them. -/
def claimedPollOutcome (o : PollOutcome) : Bool :=
  match o with
  | PollOutcome.confirmedTx => true
  | PollOutcome.failed _ _ _ => true
  | PollOutcome.timedOut => true
  | PollOutcome.rpcError _ => false

/-- The table invariant for one `(provider, direction)` pair: no `Normal`
entry, or neither high/low-variant entry. -/
def exclusivePair (m : Table) (s : SwqosType) (t : TradeType) : Prop :=
  m (s, t, GasFeeStrategyType.Normal) = none
    ∨ (m (s, t, GasFeeStrategyType.LowTipHighCuPrice) = none
        ∧ m (s, t, GasFeeStrategyType.HighTipLowCuPrice) = none)

lemma sparser_preserves {m m' : Table} (h : ∀ k, m' k = none ∨ m' k = m k)
    (s : SwqosType) (t : TradeType) (hm : exclusivePair m s t) : exclusivePair m' s t := by
  rcases hm with h1 | ⟨h2, h3⟩
  · left
    rcases h (s, t, GasFeeStrategyType.Normal) with h' | h'
    · exact h'
    · rw [h']; exact h1
  · right
    constructor
    · rcases h (s, t, GasFeeStrategyType.LowTipHighCuPrice) with h' | h'
      · exact h'
      · rw [h']; exact h2
    · rcases h (s, t, GasFeeStrategyType.HighTipLowCuPrice) with h' | h'
      · exact h'
      · rw [h']; exact h3

lemma del_sparser (m : Table) (a : SwqosType) (b : TradeType) (c : GasFeeStrategyType) :
    ∀ k, GasFeeStrategy.del m a b c k = none ∨ GasFeeStrategy.del m a b c k = m k := by
  intro k
  unfold GasFeeStrategy.del
  by_cases h : k = (a, b, c) <;> simp [h]

lemma sparser_trans {m1 m2 m3 : Table} (h12 : ∀ k, m2 k = none ∨ m2 k = m1 k)
    (h23 : ∀ k, m3 k = none ∨ m3 k = m2 k) : ∀ k, m3 k = none ∨ m3 k = m1 k := by
  intro k
  rcases h23 k with h | h
  · left; exact h
  · rw [h]; exact h12 k

lemma del_all_sparser (m : Table) (a : SwqosType) (b : TradeType) :
    ∀ k, GasFeeStrategy.del_all m a b k = none ∨ GasFeeStrategy.del_all m a b k = m k := by
  unfold GasFeeStrategy.del_all
  exact sparser_trans (sparser_trans (del_sparser m a b _) (del_sparser _ a b _))
    (del_sparser _ a b _)

lemma set_preserves (m : Table) (s' : SwqosType) (t' : TradeType) (st' : GasFeeStrategyType)
    (cl cp : Nat) (tip : ℚ) (dsl : Nat) (s : SwqosType) (t : TradeType)
    (h : exclusivePair m s t) :
    exclusivePair (GasFeeStrategy.set m s' t' st' cl cp tip dsl) s t := by
  by_cases hs : s = s'
  · subst hs
    by_cases ht : t = t'
    · subst ht
      cases st' <;>
        simp [exclusivePair, GasFeeStrategy.set, GasFeeStrategy.del, Prod.mk.injEq]
    · cases st' <;>
        simpa [exclusivePair, GasFeeStrategy.set, GasFeeStrategy.del, Prod.mk.injEq, ht]
          using h
  · cases st' <;>
      simpa [exclusivePair, GasFeeStrategy.set, GasFeeStrategy.del, Prod.mk.injEq, hs]
        using h

lemma apply_preserves (op : TableOp) (m : Table) (s : SwqosType) (t : TradeType)
    (h : exclusivePair m s t) : exclusivePair (op.apply m) s t := by
  cases op with
  | set s' t' st' cl cp tip dsl => exact set_preserves m s' t' st' cl cp tip dsl s t h
  | del s' t' st' => exact sparser_preserves (del_sparser m s' t' st') s t h
  | del_all s' t' => exact sparser_preserves (del_all_sparser m s' t') s t h
  | clear => left; rfl

lemma foldl_apply_preserves (ops : List TableOp) :
    ∀ m : Table, (∀ s t, exclusivePair m s t) →
      ∀ s t, exclusivePair (ops.foldl (fun m op => op.apply m) m) s t := by
  induction ops with
  | nil => intro m h; exact h
  | cons op rest ih =>
      intro m h
      exact ih (op.apply m) (fun s t => apply_preserves op m s t (h s t))

/-- C3: for every `(provider, direction)` pair and every finite sequence of
`set` / `del` / `del_all` / `clear` calls starting from the empty table, the
table never simultaneously holds a `Normal` entry and a
`LowTipHighCuPrice`/`HighTipLowCuPrice` entry for that pair: after any such
sequence, either the `Normal` slot is empty, or both high/low slots are. -/
theorem claim_C3_strategy_exclusivity (ops : List TableOp) (s : SwqosType) (t : TradeType) :
    runOps ops (s, t, GasFeeStrategyType.Normal) = none
      ∨ (runOps ops (s, t, GasFeeStrategyType.LowTipHighCuPrice) = none
          ∧ runOps ops (s, t, GasFeeStrategyType.HighTipLowCuPrice) = none) :=
  foldl_apply_preserves ops emptyTable (fun _ _ => Or.inl rfl) s t

lemma update_buy_tip_eq (m : Table) (tq : ℚ) (k : StrategyKey) :
    GasFeeStrategy.update_buy_tip m tq k =
      if k.2.1 = TradeType.Buy then (m k).map (fun v => { v with tip := tq }) else m k := by
  unfold GasFeeStrategy.update_buy_tip
  cases m k <;> by_cases h : k.2.1 = TradeType.Buy <;> simp [h]

lemma update_sell_tip_eq (m : Table) (tq : ℚ) (k : StrategyKey) :
    GasFeeStrategy.update_sell_tip m tq k =
      if k.2.1 = TradeType.Sell then (m k).map (fun v => { v with tip := tq }) else m k := by
  unfold GasFeeStrategy.update_sell_tip
  cases m k <;> by_cases h : k.2.1 = TradeType.Sell <;> simp [h]

lemma update_buy_cu_price_eq (m : Table) (p : Nat) (k : StrategyKey) :
    GasFeeStrategy.update_buy_cu_price m p k =
      if k.2.1 = TradeType.Buy then (m k).map (fun v => { v with cu_price := p }) else m k := by
  unfold GasFeeStrategy.update_buy_cu_price
  cases m k <;> by_cases h : k.2.1 = TradeType.Buy <;> simp [h]

lemma update_sell_cu_price_eq (m : Table) (p : Nat) (k : StrategyKey) :
    GasFeeStrategy.update_sell_cu_price m p k =
      if k.2.1 = TradeType.Sell then (m k).map (fun v => { v with cu_price := p }) else m k := by
  unfold GasFeeStrategy.update_sell_cu_price
  cases m k <;> by_cases h : k.2.1 = TradeType.Sell <;> simp [h]

/-- C9: `update_buy_tip t` maps every `Buy` entry to the same entry with its
`tip` field set to `t` (so `cu_limit`, `cu_price` and `data_size_limit` are
unchanged), leaves every `Sell` entry unchanged, and leaves the key set
unchanged — and symmetrically for `update_sell_tip` and the two
`update_*_cu_price` variants. -/
theorem claim_C9_bulk_update_frame (m : Table) (tq : ℚ) (p : Nat) (s : SwqosType)
    (tt : TradeType) (st : GasFeeStrategyType) :
    GasFeeStrategy.update_buy_tip m tq (s, TradeType.Buy, st)
        = (m (s, TradeType.Buy, st)).map (fun v => { v with tip := tq })
      ∧ GasFeeStrategy.update_buy_tip m tq (s, TradeType.Sell, st) = m (s, TradeType.Sell, st)
      ∧ (GasFeeStrategy.update_buy_tip m tq (s, tt, st)).isSome = (m (s, tt, st)).isSome
      ∧ GasFeeStrategy.update_sell_tip m tq (s, TradeType.Sell, st)
        = (m (s, TradeType.Sell, st)).map (fun v => { v with tip := tq })
      ∧ GasFeeStrategy.update_sell_tip m tq (s, TradeType.Buy, st) = m (s, TradeType.Buy, st)
      ∧ (GasFeeStrategy.update_sell_tip m tq (s, tt, st)).isSome = (m (s, tt, st)).isSome
      ∧ GasFeeStrategy.update_buy_cu_price m p (s, TradeType.Buy, st)
        = (m (s, TradeType.Buy, st)).map (fun v => { v with cu_price := p })
      ∧ GasFeeStrategy.update_buy_cu_price m p (s, TradeType.Sell, st) = m (s, TradeType.Sell, st)
      ∧ (GasFeeStrategy.update_buy_cu_price m p (s, tt, st)).isSome = (m (s, tt, st)).isSome
      ∧ GasFeeStrategy.update_sell_cu_price m p (s, TradeType.Sell, st)
        = (m (s, TradeType.Sell, st)).map (fun v => { v with cu_price := p })
      ∧ GasFeeStrategy.update_sell_cu_price m p (s, TradeType.Buy, st) = m (s, TradeType.Buy, st)
      ∧ (GasFeeStrategy.update_sell_cu_price m p (s, tt, st)).isSome = (m (s, tt, st)).isSome := by
  refine ⟨?_, ?_, ?_, ?_, ?_, ?_, ?_, ?_, ?_, ?_, ?_, ?_⟩ <;>
    cases tt <;>
      simp [update_buy_tip_eq, update_sell_tip_eq, update_buy_cu_price_eq,
        update_sell_cu_price_eq, Option.isSome_map]

/-- C1 (amended): for every call to `build_transaction` with a durable-nonce
descriptor carrying a nonce account, the assembled instruction list places
the nonce-advance instruction at index 0, the tip transfer (when tipping is
on and the tip amount is positive) immediately after it, the compute-budget
instructions (price, then limit, each only when positive) next, and the
caller-supplied business instructions last — for any values of the other
inputs.  (The claim as frozen puts the compute-budget instructions before
the tip transfer; the code emits the tip transfer first.) -/
theorem claim_C1_instruction_order (payer unitLimit unitPrice : Nat) (biz : List Instr)
    (withTip : Bool) (tipAccount : Nat) (tipAmount : ℚ) (na : Nat) (cn : Option Nat) :
    buildTransactionInstructions payer unitLimit unitPrice biz withTip tipAccount tipAmount
        (some ⟨some na, cn⟩)
      = Except.ok ([Instr.advanceNonce na payer]
          ++ (if withTip ∧ 0 < tipAmount then
                [Instr.transfer payer tipAccount (solToLamports tipAmount)]
              else [])
          ++ compute_budget_instructions unitPrice unitLimit
          ++ biz) := by
  by_cases h : withTip ∧ 0 < tipAmount <;>
    simp [buildTransactionInstructions, add_nonce_instruction, h, Bind.bind, Except.bind]

/-- C1 counterexample: at a concrete input (durable nonce present, tipping
on with a positive tip, positive price and limit, one business instruction)
the tip transfer sits at index 1, before the compute-budget instructions —
not after them, as the claim orders the list. -/
theorem claim_C1_counterexample :
    buildTransactionInstructions 1 7 5 [Instr.business 0] true 2 1 (some ⟨some 3, some 4⟩)
        = Except.ok [Instr.advanceNonce 3 1, Instr.transfer 1 2 1000000000,
            Instr.setComputeUnitPrice 5, Instr.setComputeUnitLimit 7, Instr.business 0]
      ∧ buildTransactionInstructions 1 7 5 [Instr.business 0] true 2 1 (some ⟨some 3, some 4⟩)
        ≠ Except.ok [Instr.advanceNonce 3 1, Instr.setComputeUnitPrice 5,
            Instr.setComputeUnitLimit 7, Instr.transfer 1 2 1000000000, Instr.business 0] := by
  have h1 : buildTransactionInstructions 1 7 5 [Instr.business 0] true 2 1
      (some ⟨some 3, some 4⟩)
      = Except.ok [Instr.advanceNonce 3 1, Instr.transfer 1 2 1000000000,
          Instr.setComputeUnitPrice 5, Instr.setComputeUnitLimit 7, Instr.business 0] := by
    norm_num [buildTransactionInstructions, add_nonce_instruction, Bind.bind, Except.bind,
      compute_budget_instructions, solToLamports, Rat.floor_def']
    decide
  refine ⟨h1, ?_⟩
  rw [h1]
  decide

lemma mem_taskConfigs {clients : List SwqosType} {withTip : Bool}
    {strategies : List StrategyEntry} {cfg : TaskConfig} :
    cfg ∈ taskConfigs clients withTip strategies ↔
      (cfg.1, cfg.2.1) ∈ clients.enum
        ∧ (withTip || decide (cfg.2.1 = SwqosType.Default)) = true
        ∧ cfg.2.2 ∈ strategies
        ∧ cfg.2.2.1 = cfg.2.1
        ∧ (if withTip && !(decide (cfg.2.2.1 = SwqosType.Default)) then
            decide (minTip cfg.2.2.1 ≤ cfg.2.2.2.2.tip)
          else true) = true := by
  obtain ⟨i, c, e⟩ := cfg
  simp only [taskConfigs, List.mem_flatMap, List.mem_filter, List.mem_map]
  constructor
  · rintro ⟨⟨i', c'⟩, ⟨hmem, hcond⟩, e', ⟨⟨he, heq⟩, htip⟩, hmap⟩
    simp only [Prod.mk.injEq] at hmap
    obtain ⟨h1, h2, h3⟩ := hmap
    subst h1; subst h2; subst h3
    exact ⟨hmem, hcond, he, by simpa using heq, htip⟩
  · rintro ⟨h1, h2, h3, h4, h5⟩
    exact ⟨(i, c), ⟨h1, h2⟩, e, ⟨⟨h3, by simpa using h4⟩, h5⟩, rfl⟩

lemma taskConfigs_client_mem {clients : List SwqosType} {withTip : Bool}
    {strategies : List StrategyEntry} {cfg : TaskConfig}
    (h : cfg ∈ taskConfigs clients withTip strategies) : cfg.2.1 ∈ clients := by
  rw [mem_taskConfigs] at h
  exact List.getElem?_mem (List.mk_mem_enum_iff_getElem?.mp h.1)

lemma taskConfigs_nil (withTip : Bool) (strategies : List StrategyEntry) :
    taskConfigs [] withTip strategies = [] := by
  simp [taskConfigs]

/-- C2: whenever the direction is `Buy`, more than one `(relay, strategy)`
pair survives the eligibility and minimum-tip filtering, and no durable
nonce is supplied, `execute_parallel` returns the durable-nonce
configuration error — on the pre-spawn path, so no submission task is
spawned (`ok` plans are what the spawn loop runs over). -/
theorem claim_C2_multi_submission_nonce_guard (clients : List SwqosType) (withTip : Bool)
    (strategies : List StrategyEntry)
    (h : 1 < (taskConfigs clients withTip strategies).length) :
    executeParallelPlan clients withTip strategies true none
      = Except.error ExecError.nonceRequired := by
  have hnil : clients ≠ [] := by
    intro hc
    rw [hc, taskConfigs_nil] at h
    simp at h
  have hcfg : taskConfigs clients withTip strategies ≠ [] := by
    intro hc
    rw [hc] at h
    simp at h
  have hguard : (!withTip && !(clients.any fun c => decide (c = SwqosType.Default))) = false := by
    cases hw : withTip with
    | true => simp
    | false =>
        cases hx : taskConfigs clients withTip strategies with
        | nil => exact absurd hx hcfg
        | cons cfg rest =>
            have hmem : cfg ∈ taskConfigs clients withTip strategies := by
              rw [hx]; exact List.mem_cons_self cfg rest
            have hc := taskConfigs_client_mem hmem
            have hcond := (mem_taskConfigs.mp hmem).2.1
            rw [hw] at hcond
            simp only [Bool.false_or, decide_eq_true_eq] at hcond
            have hdef : SwqosType.Default ∈ clients := by rw [← hcond]; exact hc
            simp [List.any_eq_true]
            exact hdef
  simp only [executeParallelPlan, hguard, if_neg hnil, Bool.false_eq_true, if_false,
    if_neg hcfg]
  simp [h]

/-- C4: with tipping disabled, `execute_parallel` fails outright (on the
pre-spawn path) when no `Default`-type relay client is in the roster; and
every task pair it ever builds with tipping disabled belongs to a
`Default`-type relay client, so all tip-requiring providers are dropped. -/
theorem claim_C4_no_tip_needs_direct_provider :
    (∀ (clients : List SwqosType) (strategies : List StrategyEntry) (isBuy : Bool)
        (dn : Option DurableNonceInfo),
        (∀ c ∈ clients, c ≠ SwqosType.Default) →
          isErr (executeParallelPlan clients false strategies isBuy dn) = true)
      ∧ (∀ (clients : List SwqosType) (strategies : List StrategyEntry) (cfg : TaskConfig),
          cfg ∈ taskConfigs clients false strategies → cfg.2.1 = SwqosType.Default) := by
  constructor
  · intro clients strategies isBuy dn hnone
    by_cases hnil : clients = []
    · simp [executeParallelPlan, hnil, isErr]
    · have hany : (clients.any fun c => decide (c = SwqosType.Default)) = false := by
        rw [List.any_eq_false]
        intro c hc
        simp [hnone c hc]
      simp [executeParallelPlan, hnil, hany, isErr]
  · intro clients strategies cfg hmem
    have hcond := (mem_taskConfigs.mp hmem).2.1
    simpa using hcond

/-- C5: with tipping enabled, a fee-strategy entry for a non-`Default`
provider whose tip is strictly below that provider's minimum-tip floor never
appears in the eligible `(relay, strategy)` set; and when filtering leaves
zero eligible pairs (with a nonempty roster), `execute_parallel` returns the
"no available gas fee strategy configs" error rather than doing nothing. -/
theorem claim_C5_minimum_tip_filtering :
    (∀ (clients : List SwqosType) (strategies : List StrategyEntry) (i : Nat)
        (c : SwqosType) (e : StrategyEntry),
        e.1 ≠ SwqosType.Default → e.2.2.tip < minTip e.1 →
          (i, c, e) ∉ taskConfigs clients true strategies)
      ∧ (∀ (clients : List SwqosType) (strategies : List StrategyEntry) (isBuy : Bool)
          (dn : Option DurableNonceInfo),
          clients ≠ [] → taskConfigs clients true strategies = [] →
            executeParallelPlan clients true strategies isBuy dn
              = Except.error ExecError.noAvailableStrategy) := by
  constructor
  · intro clients strategies i c e hdef htip hmem
    have hcond := (mem_taskConfigs.mp hmem).2.2.2.2
    simp only [mem_taskConfigs] at hmem
    rw [if_pos (by simp [hdef])] at hcond
    rw [decide_eq_true_eq] at hcond
    exact absurd hcond (not_le.mpr htip)
  · intro clients strategies isBuy dn hnil hempty
    simp [executeParallelPlan, hnil, hempty]

/-- C5 witness: a `Jito` entry with tip `0` (below the `0.00001` floor) is
excluded, and with it as the only entry the plan errors out. -/
theorem claim_C5_witness :
    (0, SwqosType.Jito,
        ((SwqosType.Jito, GasFeeStrategyType.Normal,
          (⟨0, 0, 0, 0⟩ : GasFeeStrategyValue)) : StrategyEntry))
        ∉ taskConfigs [SwqosType.Jito] true
          [(SwqosType.Jito, GasFeeStrategyType.Normal, (⟨0, 0, 0, 0⟩ : GasFeeStrategyValue))]
      ∧ executeParallelPlan [SwqosType.Jito] true
          [(SwqosType.Jito, GasFeeStrategyType.Normal, (⟨0, 0, 0, 0⟩ : GasFeeStrategyValue))]
          true none
        = Except.error ExecError.noAvailableStrategy := by
  constructor
  · exact claim_C5_minimum_tip_filtering.1 _ _ _ _ _ (by simp)
      (by norm_num [minTip])
  · refine claim_C5_minimum_tip_filtering.2 _ _ _ _ (by simp) ?_
    have : ¬ ((1 : ℚ) / 100000 ≤ 0) := by norm_num
    simp [taskConfigs, List.enum, minTip, this]

/-- C2 witness: two eligible `Jito` pairs (tips at the floor), direction
`Buy`, no durable nonce: the plan is the durable-nonce error. -/
theorem claim_C2_witness :
    executeParallelPlan [SwqosType.Jito] true
        [(SwqosType.Jito, GasFeeStrategyType.LowTipHighCuPrice,
            (⟨0, 0, minTip SwqosType.Jito, 0⟩ : GasFeeStrategyValue)),
          (SwqosType.Jito, GasFeeStrategyType.HighTipLowCuPrice,
            (⟨0, 0, minTip SwqosType.Jito, 0⟩ : GasFeeStrategyValue))]
        true none
      = Except.error ExecError.nonceRequired := by
  refine claim_C2_multi_submission_nonce_guard _ _ _ ?_
  have : taskConfigs [SwqosType.Jito] true
      [(SwqosType.Jito, GasFeeStrategyType.LowTipHighCuPrice,
          (⟨0, 0, minTip SwqosType.Jito, 0⟩ : GasFeeStrategyValue)),
        (SwqosType.Jito, GasFeeStrategyType.HighTipLowCuPrice,
          (⟨0, 0, minTip SwqosType.Jito, 0⟩ : GasFeeStrategyValue))]
      = [(0, SwqosType.Jito,
            (SwqosType.Jito, GasFeeStrategyType.LowTipHighCuPrice,
              (⟨0, 0, minTip SwqosType.Jito, 0⟩ : GasFeeStrategyValue))),
          (0, SwqosType.Jito,
            (SwqosType.Jito, GasFeeStrategyType.HighTipLowCuPrice,
              (⟨0, 0, minTip SwqosType.Jito, 0⟩ : GasFeeStrategyValue)))] := by
    simp [taskConfigs, List.enum]
  rw [this]
  simp

lemma applySubmits_total (rs : List TaskResult) (st : CollectorState) :
    (applySubmits rs st).total_tasks = st.total_tasks := by
  induction rs generalizing st with
  | nil => rfl
  | cons r rest ih => rw [applySubmits, List.foldl_cons, ← applySubmits]; exact ih (submit st r)

lemma applySubmits_completed (rs : List TaskResult) (st : CollectorState) :
    (applySubmits rs st).completed_count = st.completed_count + rs.length := by
  induction rs generalizing st with
  | nil => rfl
  | cons r rest ih =>
      rw [applySubmits, List.foldl_cons, ← applySubmits, ih (submit st r)]
      simp [submit]
      omega

lemma applySubmits_flag (rs : List TaskResult) (st : CollectorState) :
    (applySubmits rs st).success_flag = (st.success_flag || rs.any fun r => r.success) := by
  induction rs generalizing st with
  | nil => simp [applySubmits]
  | cons r rest ih =>
      rw [applySubmits, List.foldl_cons, ← applySubmits, ih (submit st r)]
      simp [submit, Bool.or_assoc]

lemma applySubmits_results (rs : List TaskResult) (st : CollectorState)
    (h : st.results.length + rs.length ≤ st.total_tasks) :
    (applySubmits rs st).results = st.results ++ rs := by
  induction rs generalizing st with
  | nil => simp [applySubmits]
  | cons r rest ih =>
      rw [applySubmits, List.foldl_cons, ← applySubmits]
      have hlt : st.results.length < st.total_tasks := by
        simp at h
        omega
      have hsub : (submit st r).results = st.results ++ [r] := by
        simp [submit, hlt]
      have htot : (submit st r).total_tasks = st.total_tasks := rfl
      have h2 : (submit st r).results.length + rest.length ≤ (submit st r).total_tasks := by
        rw [hsub, htot]
        simp at h ⊢
        omega
      rw [ih (submit st r) h2, hsub]
      simp

lemma drainAll_aux (rs : List TaskResult) :
    ∀ (b : Bool) (sigs : List Nat) (le : Option String),
      rs.foldl
          (fun acc r =>
            (acc.1 || r.success, acc.2.1 ++ [r.signature],
              if r.error.isSome then r.error else acc.2.2))
          (b, sigs, le)
        = (b || rs.any fun r => r.success, sigs ++ rs.map fun r => r.signature,
            match lastTaskError rs with
            | some e => some e
            | none => le) := by
  induction rs with
  | nil => intro b sigs le; simp [lastTaskError]
  | cons r rest ih =>
      intro b sigs le
      rw [List.foldl_cons, ih]
      refine congrArg₂ Prod.mk ?_ (congrArg₂ Prod.mk ?_ ?_)
      · simp [Bool.or_assoc]
      · simp
      · simp only [lastTaskError]
        cases lastTaskError rest with
        | some e => rfl
        | none => cases hr : r.error <;> simp [hr]

lemma drainAll_eq (rs : List TaskResult) :
    drainAll rs = (rs.any fun r => r.success, rs.map fun r => r.signature, lastTaskError rs) := by
  rw [drainAll, drainAll_aux]
  cases h : lastTaskError rs <;> simp

/-- C6: in a submission round of at most `total_tasks` pushes, whenever the
collector's success flag is observed `true`, some pushed result carried
`success = true` (the sequential rendering of the release/acquire
happens-before edge on the flag), and the waiting loop's next inspection
drains the collector and returns `success = true` together with every
signature collected so far — not only the winning task's. -/
theorem claim_C6_first_success_drains_all (rs : List TaskResult) (n : Nat)
    (hlen : rs.length ≤ n)
    (hflag : (applySubmits rs (initCollector n)).success_flag = true) :
    (∃ r ∈ rs, r.success = true)
      ∧ (waitStep (applySubmits rs (initCollector n))).2
        = WaitDecision.ret (true, rs.map fun r => r.signature, none) := by
  have hany : (rs.any fun r => r.success) = true := by
    have := applySubmits_flag rs (initCollector n)
    rw [hflag] at this
    simpa [initCollector] using this.symm
  have hres : (applySubmits rs (initCollector n)).results = rs := by
    have := applySubmits_results rs (initCollector n) (by simp [initCollector, hlen])
    simpa [initCollector] using this
  have hne : rs ≠ [] := by
    intro hrs
    rw [hrs] at hany
    simp at hany
  constructor
  · simpa [List.any_eq_true] using hany
  · simp [waitStep, hflag, hres, hany, hne]

/-- C6 witness: two pushed results, the second successful; the flag reads
`true` and the inspection returns both signatures with `success = true`. -/
theorem claim_C6_witness :
    (∃ r ∈ [(⟨false, 5, some "transport", SwqosType.Default⟩ : TaskResult),
        ⟨true, 6, none, SwqosType.Jito⟩], r.success = true)
      ∧ (waitStep (applySubmits
            [(⟨false, 5, some "transport", SwqosType.Default⟩ : TaskResult),
              ⟨true, 6, none, SwqosType.Jito⟩] (initCollector 2))).2
        = WaitDecision.ret (true, [5, 6], none) :=
  claim_C6_first_success_drains_all
    [⟨false, 5, some "transport", SwqosType.Default⟩, ⟨true, 6, none, SwqosType.Jito⟩]
    2 (by decide) (by decide)

/-- C7: when every spawned task has completed (one push per task) and none
succeeded, the waiting loop's inspection terminates the round with
`success = false`, the full list of collected signatures, and `last_error`
equal to the most recently observed task error. -/
theorem claim_C7_all_fail_aggregation (rs : List TaskResult) (n : Nat)
    (hn : n = rs.length) (hne : rs ≠ [])
    (hfail : ∀ r ∈ rs, r.success = false) :
    (waitStep (applySubmits rs (initCollector n))).2
      = WaitDecision.ret (false, rs.map fun r => r.signature, lastTaskError rs) := by
  subst hn
  have hany : (rs.any fun r => r.success) = false := by
    rw [List.any_eq_false]
    intro r hr
    simp [hfail r hr]
  have hflag : (applySubmits rs (initCollector rs.length)).success_flag = false := by
    rw [applySubmits_flag]
    simp [initCollector, hany]
  have hres : (applySubmits rs (initCollector rs.length)).results = rs := by
    have := applySubmits_results rs (initCollector rs.length) (by simp [initCollector])
    simpa [initCollector] using this
  have hcompleted : (applySubmits rs (initCollector rs.length)).completed_count = rs.length := by
    rw [applySubmits_completed]
    simp [initCollector]
  have htotal : (applySubmits rs (initCollector rs.length)).total_tasks = rs.length := by
    rw [applySubmits_total]
    rfl
  simp [waitStep, hflag, hres, hcompleted, htotal, drainAll_eq, hany, hne]

/-- C7 witness: three immediately failing tasks; the round ends with
`success = false`, all three signatures, and the third task's error. -/
theorem claim_C7_witness :
    (waitStep (applySubmits
          [(⟨false, 1, some "e1", SwqosType.Jito⟩ : TaskResult),
            ⟨false, 2, some "e2", SwqosType.Bloxroute⟩,
            ⟨false, 3, some "e3", SwqosType.Default⟩] (initCollector 3))).2
      = WaitDecision.ret (false, [1, 2, 3], some "e3") :=
  claim_C7_all_fail_aggregation
    [⟨false, 1, some "e1", SwqosType.Jito⟩, ⟨false, 2, some "e2", SwqosType.Bloxroute⟩,
      ⟨false, 3, some "e3", SwqosType.Default⟩]
    3 (by decide) (by decide) (by decide)

lemma flatMap_length_of_singleton {α β : Type} (l : List α) (f : α → List β)
    (h : ∀ a, (f a).length = 1) : (l.flatMap f).length = l.length := by
  induction l with
  | nil => rfl
  | cons a rest ih =>
      simp [List.flatMap_cons, h a, ih]
      omega

lemma runSpawnedTask_length (buildSpec : Except String (Nat × List Instr × Nat))
    (sendResult : Except String Unit) (st : SwqosType) :
    (runSpawnedTask buildSpec sendResult st).length = 1 := by
  cases buildSpec with
  | error e => simp [runSpawnedTask, runTask, Except.map]
  | ok a =>
      cases sendResult <;>
        simp [runSpawnedTask, runTask, Except.map, build_versioned_transaction]

/-- C10: every transaction the builder produces carries exactly one
signature, so every spawned submission task pushes exactly one `TaskResult`
into the collector (a sentinel result on build failure, the transaction's
first signature otherwise); consequently, once every task has finished, the
collector's completed count equals the number of spawned tasks, and on any
prefix of the pushes it never exceeds that number. -/
theorem claim_C10_one_push_per_task :
    (∀ (payer : Nat) (instructions : List Instr) (blockhash : Nat),
        (build_versioned_transaction payer instructions blockhash).signatures.length = 1)
      ∧ (∀ (buildSpec : Except String (Nat × List Instr × Nat))
          (sendResult : Except String Unit) (st : SwqosType),
          (runSpawnedTask buildSpec sendResult st).length = 1)
      ∧ (∀ (tasks : List (Except String (Nat × List Instr × Nat)
            × Except String Unit × SwqosType)),
          (applySubmits (tasks.flatMap fun t => runSpawnedTask t.1 t.2.1 t.2.2)
              (initCollector tasks.length)).completed_count = tasks.length
            ∧ ∀ k,
              (applySubmits ((tasks.flatMap fun t => runSpawnedTask t.1 t.2.1 t.2.2).take k)
                  (initCollector tasks.length)).completed_count ≤ tasks.length) := by
  refine ⟨?_, ?_, ?_⟩
  · intro payer instructions blockhash
    simp [build_versioned_transaction]
  · exact runSpawnedTask_length
  · intro tasks
    have hlen : (tasks.flatMap fun t => runSpawnedTask t.1 t.2.1 t.2.2).length
        = tasks.length :=
      flatMap_length_of_singleton tasks _ (fun t => runSpawnedTask_length t.1 t.2.1 t.2.2)
    constructor
    · rw [applySubmits_completed]
      simp [initCollector, hlen]
    · intro k
      rw [applySubmits_completed]
      simp only [initCollector, Nat.zero_add]
      calc ((tasks.flatMap fun t => runSpawnedTask t.1 t.2.1 t.2.2).take k).length
          ≤ (tasks.flatMap fun t => runSpawnedTask t.1 t.2.1 t.2.2).length :=
            List.length_take_le' _ _
        _ = tasks.length := hlen

/-- C8 (amended): the poller works on a fixed 1-second interval against a
fixed 15-second deadline, and terminates in exactly one of four outcomes:
`confirmedTx` when the transaction is visible with no execution error at
sufficient commitment; a failure carrying the stable numeric code mapped
from the instruction-error category (`Custom c ↦ c`,
`InsufficientFunds ↦ 6`, `MissingRequiredSignature ↦ 8`, any unlisted
variant `↦ 999`) plus the log-derived message; `timedOut` when the deadline
elapses unresolved; or — the case the frozen claim omits — the propagated
RPC-transport error when a signature-status query itself fails. -/
theorem claim_C8_poller_outcomes :
    pollTimeoutMs = 15000 ∧ pollIntervalMs = 1000
      ∧ (∀ c, instructionErrorCode (InstructionErr.Custom c) = c)
      ∧ instructionErrorCode InstructionErr.InsufficientFunds = 6
      ∧ instructionErrorCode InstructionErr.MissingRequiredSignature = 8
      ∧ instructionErrorCode InstructionErr.otherVariant = 999
      ∧ (∀ (i : Nat) (ie : InstructionErr) (logs : Option (List String)),
          poll_transaction_confirmation
              (fun _ => ⟨Except.ok none,
                Except.ok ⟨some ⟨some (TxErr.InstructionError i ie), logs⟩⟩⟩)
            = PollOutcome.failed (instructionErrorCode ie)
                (formatTradeErrorMessage (TxErr.InstructionError i ie) (extractErrorMsg logs))
                (some i))
      ∧ (∀ logs : Option (List String),
          poll_transaction_confirmation
              (fun _ => ⟨Except.ok none, Except.ok ⟨some ⟨none, logs⟩⟩⟩)
            = PollOutcome.confirmedTx)
      ∧ poll_transaction_confirmation
          (fun _ => ⟨Except.ok (some ⟨none, some TxConfirmationStatus.confirmed⟩),
            Except.error "pending"⟩)
        = PollOutcome.confirmedTx
      ∧ poll_transaction_confirmation (fun _ => ⟨Except.ok none, Except.error "pending"⟩)
        = PollOutcome.timedOut
      ∧ (∀ rounds : Nat → PollRound,
          poll_transaction_confirmation rounds = PollOutcome.confirmedTx
            ∨ (∃ c m i, poll_transaction_confirmation rounds = PollOutcome.failed c m i)
            ∨ poll_transaction_confirmation rounds = PollOutcome.timedOut
            ∨ (∃ e, poll_transaction_confirmation rounds = PollOutcome.rpcError e)) := by
  refine ⟨rfl, rfl, fun c => rfl, rfl, rfl, rfl, fun i ie logs => rfl, fun logs => rfl,
    rfl, rfl, ?_⟩
  intro rounds
  cases h : poll_transaction_confirmation rounds with
  | confirmedTx => exact Or.inl rfl
  | failed c m i => exact Or.inr (Or.inl ⟨c, m, i, rfl⟩)
  | timedOut => exact Or.inr (Or.inr (Or.inl rfl))
  | rpcError e => exact Or.inr (Or.inr (Or.inr ⟨e, rfl⟩))

/-- C8 counterexample: when the very first signature-status query fails, the
poller returns that propagated RPC error — an outcome outside the three
forms the claim allows. -/
theorem claim_C8_counterexample :
    claimedPollOutcome (poll_transaction_confirmation
        (fun _ => ⟨Except.error "rpc down", Except.error "rpc down"⟩)) = false
      ∧ poll_transaction_confirmation
          (fun _ => ⟨Except.error "rpc down", Except.error "rpc down"⟩)
        = PollOutcome.rpcError "rpc down" :=
  ⟨rfl, rfl⟩

end SolTradeSdk
